import Mathlib

/-!
Shallow embedding of the scudb buffer pool manager
(src/scu_database_solution/src/buffer/buffer_pool_manager.cpp).

Frames are identified by their index in the pool's page array (the C++
code passes `Page *` pointers into a fixed array `pages_`, so a pointer
is exactly an array index). Page contents are abstracted to a single
`Nat` token per page; the disk collaborator keeps an id-indexed store of
such tokens and a fresh-id counter. Every pool operation additionally
returns the list of disk-collaborator calls it issued, in order.
-/

namespace Scudb

abbrev PageId := Int

def INVALID_PAGE_ID : PageId := -1

abbrev FrameId := Nat

/-- A page frame: metadata plus (abstracted) contents, mirroring the C++
`Page` class (`page_id_`, `pin_count_`, `is_dirty_`, `data_`). A
default-constructed frame has the invalid id, pin count 0, clean, zeroed
data. `pin_count` is an `Int` because the C++ field is a signed `int`
and `UnpinPage` tests `pin_count <= 0`. -/
structure Page where
  page_id : PageId := INVALID_PAGE_ID
  pin_count : Int := 0
  is_dirty : Bool := false
  data : Nat := 0
deriving DecidableEq, Repr

instance : Inhabited Page := ⟨{}⟩

/-- One disk-collaborator call, for recording call traces. -/
inductive DiskOp where
  | write (id : PageId) (d : Nat)
  | read (id : PageId)
  | alloc (id : PageId)
  | dealloc (id : PageId)
deriving DecidableEq, Repr

/-- Modelled from the spec: the `DiskManager` collaborator is not under
src/ (§6 of the spec gives its contract). `store` maps page ids to
contents (default 0), `nextId` is the fresh-id counter behind
`AllocatePage`. -/
structure Disk where
  store : List (PageId × Nat) := []
  nextId : PageId := 0
deriving DecidableEq, Repr

def diskRead (d : Disk) (id : PageId) : Nat :=
  (((d.store.find? (fun e => e.1 == id))).map (fun e => e.2)).getD 0

def diskWrite (d : Disk) (id : PageId) (v : Nat) : Disk :=
  { d with store := (id, v) :: d.store.filter (fun e => e.1 != id) }

def diskAlloc (d : Disk) : PageId × Disk :=
  (d.nextId, { d with nextId := d.nextId + 1 })

/-- Modelled from the spec: `ExtendibleHash<page_id_t, Page *>::Find`
is not under src/; §4.3 gives the page-table contract (point lookup). -/
def ptFind (pt : List (PageId × FrameId)) (id : PageId) : Option FrameId :=
  ((pt.find? (fun e => e.1 == id))).map (fun e => e.2)

/-- Modelled from the spec: page-table `Remove` (§4.3 contract). -/
def ptRemove (pt : List (PageId × FrameId)) (id : PageId) : List (PageId × FrameId) :=
  pt.filter (fun e => e.1 != id)

/-- Modelled from the spec: page-table `Insert` (§4.3 contract); an
existing entry under the same key is replaced. -/
def ptInsert (pt : List (PageId × FrameId)) (id : PageId) (f : FrameId) :
    List (PageId × FrameId) :=
  (id, f) :: ptRemove pt id

/-- Modelled from the spec: `LRUReplacer::Insert` is not under src/
(only lru_replacer.h is); §4.2 gives the contract. The tracked frames
are a list whose front is the least-recently-inserted (next victim);
`Insert` places the frame at the most-recently-used position. -/
def lruInsert (r : List FrameId) (f : FrameId) : List FrameId :=
  (r.filter (fun g => g != f)) ++ [f]

/-- Modelled from the spec: `LRUReplacer::Erase` (§4.2 contract);
no-op when the frame is untracked. -/
def lruErase (r : List FrameId) (f : FrameId) : List FrameId :=
  r.filter (fun g => g != f)

/-- Modelled from the spec: `LRUReplacer::Victim` (§4.2 contract);
removes and returns the least-recently-used tracked frame. -/
def lruVictim : List FrameId → Option FrameId × List FrameId
  | [] => (none, [])
  | f :: rest => (some f, rest)

/-- The whole pool state: fixed frame array, page table, replacer,
free list, and the disk collaborator's state. -/
structure BufferPoolManager where
  pages : List Page
  page_table : List (PageId × FrameId)
  replacer : List FrameId
  free_list : List FrameId
  disk : Disk
deriving DecidableEq, Repr

/-- Read frame `f`'s metadata (out-of-range reads give the default
frame; reachable states only index in range). -/
def getPage (s : BufferPoolManager) (f : FrameId) : Page :=
  s.pages.getD f default

/-- `BufferPoolManager::GetVictimPage`: take the free-list front if the
free list is non-empty; otherwise, if the replacer tracks nothing,
fail; otherwise take the replacer's victim. -/
def GetVictimPage (s : BufferPoolManager) : Option FrameId × BufferPoolManager :=
  match s.free_list with
  | [] =>
    if s.replacer.length = 0 then (none, s)
    else
      let vr := lruVictim s.replacer
      (vr.1, { s with replacer := vr.2 })
  | f :: rest => (some f, { s with free_list := rest })

/-- The condition of the `assert(target->GetPinCount() == 0)` in
`GetVictimPage` (line 65): true when the helper yields no frame or a
frame with pin count 0. -/
def victimPinAssert (s : BufferPoolManager) : Bool :=
  match (GetVictimPage s).1 with
  | none => true
  | some f => (getPage s f).pin_count == 0

/-- The condition of the `assert(target->GetPageId() == INVALID_PAGE_ID)`
in `GetVictimPage`'s free-list branch (line 63). -/
def victimIdAssert (s : BufferPoolManager) : Bool :=
  match s.free_list with
  | [] => true
  | f :: _ => (getPage s f).page_id == INVALID_PAGE_ID

/-- `BufferPoolManager::FetchPage`. Hit: pin and erase from replacer.
Miss: get a victim; if none, fail; else write back if dirty, remove the
victim's old table entry, insert the new one, read the page from disk,
and set pin count 1, clean, new id. Returns the frame (if any), the new
state, and the disk-call trace. -/
def FetchPage (s : BufferPoolManager) (page_id : PageId) :
    Option FrameId × BufferPoolManager × List DiskOp :=
  match ptFind s.page_table page_id with
  | some f =>
    let p := getPage s f
    (some f,
     { s with pages := s.pages.set f { p with pin_count := p.pin_count + 1 },
              replacer := lruErase s.replacer f },
     [])
  | none =>
    match GetVictimPage s with
    | (none, _) => (none, s, [])
    | (some f, s1) =>
      let p := getPage s1 f
      let d1 := if p.is_dirty then diskWrite s1.disk p.page_id p.data else s1.disk
      let wtrace := if p.is_dirty then [DiskOp.write p.page_id p.data] else []
      let pt1 := ptInsert (ptRemove s1.page_table p.page_id) page_id f
      let newData := diskRead d1 page_id
      (some f,
       { s1 with
           pages := s1.pages.set f
             { page_id := page_id, pin_count := 1, is_dirty := false, data := newData },
           page_table := pt1,
           disk := d1 },
       wtrace ++ [DiskOp.read page_id])

/-- `BufferPoolManager::UnpinPage`. If the id is not resident, fail.
Otherwise assign the frame's dirty flag from the argument (the C++ code
does this before the pin-count check), then: if pin count is already
non-positive, fail; else decrement, and insert into the replacer when
the count reaches zero. -/
def UnpinPage (s : BufferPoolManager) (page_id : PageId) (is_dirty : Bool) :
    Bool × BufferPoolManager :=
  match ptFind s.page_table page_id with
  | none => (false, s)
  | some f =>
    let p := getPage s f
    let p1 := { p with is_dirty := is_dirty }
    if p1.pin_count ≤ 0 then
      (false, { s with pages := s.pages.set f p1 })
    else
      let p2 := { p1 with pin_count := p1.pin_count - 1 }
      if p2.pin_count = 0 then
        (true, { s with pages := s.pages.set f p2,
                        replacer := lruInsert s.replacer f })
      else
        (true, { s with pages := s.pages.set f p2 })

/-- `BufferPoolManager::FlushPage`. Fail when the id is absent or the
stored id is INVALID; otherwise write back if dirty (keyed by the
looked-up id) and clear the dirty flag. -/
def FlushPage (s : BufferPoolManager) (page_id : PageId) :
    Bool × BufferPoolManager × List DiskOp :=
  match ptFind s.page_table page_id with
  | none => (false, s, [])
  | some f =>
    let p := getPage s f
    if p.page_id = INVALID_PAGE_ID then
      (false, s, [])
    else if p.is_dirty then
      (true,
       { s with pages := s.pages.set f { p with is_dirty := false },
                disk := diskWrite s.disk page_id p.data },
       [DiskOp.write page_id p.data])
    else
      (true, s, [])

/-- `BufferPoolManager::DeletePage`. If resident and pinned, fail
(before any disk call). If resident and unpinned, erase from the
replacer, remove the table entry, clear the dirty flag, zero the
contents (the C++ code does not reset `page_id_`), and push the frame
on the free list. In the non-failing cases, request `DeallocatePage`. -/
def DeletePage (s : BufferPoolManager) (page_id : PageId) :
    Bool × BufferPoolManager × List DiskOp :=
  match ptFind s.page_table page_id with
  | some f =>
    let p := getPage s f
    if p.pin_count > 0 then
      (false, s, [])
    else
      (true,
       { s with replacer := lruErase s.replacer f,
                page_table := ptRemove s.page_table page_id,
                pages := s.pages.set f { p with is_dirty := false, data := 0 },
                free_list := s.free_list ++ [f] },
       [DiskOp.dealloc page_id])
  | none => (true, s, [DiskOp.dealloc page_id])

/-- `BufferPoolManager::NewPage`. Get a victim; if none, fail with no
disk call. Else allocate a fresh id, write back the victim if dirty,
swap the table entries, and set the frame to the new id, zeroed, clean,
pin count 1. -/
def NewPage (s : BufferPoolManager) :
    Option (PageId × FrameId) × BufferPoolManager × List DiskOp :=
  match GetVictimPage s with
  | (none, _) => (none, s, [])
  | (some f, s1) =>
    let ad := diskAlloc s1.disk
    let newId := ad.1
    let p := getPage s1 f
    let d1 := if p.is_dirty then diskWrite ad.2 p.page_id p.data else ad.2
    let wtrace := if p.is_dirty then [DiskOp.write p.page_id p.data] else []
    let pt1 := ptInsert (ptRemove s1.page_table p.page_id) newId f
    (some (newId, f),
     { s1 with
         pages := s1.pages.set f
           { page_id := newId, pin_count := 1, is_dirty := false, data := 0 },
         page_table := pt1,
         disk := d1 },
     [DiskOp.alloc newId] ++ wtrace)

/-- The pool right after construction with `n` frames: every frame
default-constructed and on the free list in index order. -/
def initBPM (n : Nat) : BufferPoolManager :=
  { pages := List.replicate n default,
    page_table := [],
    replacer := [],
    free_list := List.range n,
    disk := {} }

/-- One public pool operation (the five entry points). -/
inductive BPMOp where
  | fetch (id : PageId)
  | unpin (id : PageId) (d : Bool)
  | flush (id : PageId)
  | delete (id : PageId)
  | new
deriving DecidableEq, Repr

/-- Apply one public operation, keeping only the state. -/
def applyOp (s : BufferPoolManager) : BPMOp → BufferPoolManager
  | BPMOp.fetch id => (FetchPage s id).2.1
  | BPMOp.unpin id d => (UnpinPage s id d).2
  | BPMOp.flush id => (FlushPage s id).2.1
  | BPMOp.delete id => (DeletePage s id).2.1
  | BPMOp.new => (NewPage s).2.1

/-- Run a sequence of public operations from the initial `n`-frame pool. -/
def runOps (n : Nat) (ops : List BPMOp) : BufferPoolManager :=
  ops.foldl applyOp (initBPM n)

/-- A state is reachable when some operation sequence from the initial
pool produces it. -/
def Reachable (n : Nat) (s : BufferPoolManager) : Prop :=
  ∃ ops : List BPMOp, runOps n ops = s

/-- A pool of one frame holding page 0 pinned twice and marked dirty by
an unpin. -/
def c1State : BufferPoolManager :=
  runOps 1 [BPMOp.fetch 0, BPMOp.fetch 0, BPMOp.unpin 0 true]

/-- A pool of one frame holding page 0 with pin count 0 and the dirty
flag set. -/
def c2State : BufferPoolManager :=
  runOps 1 [BPMOp.fetch 0, BPMOp.unpin 0 true]

/-- A pool of one frame holding page 0 pinned once. -/
def c3State : BufferPoolManager :=
  runOps 1 [BPMOp.fetch 0]

/-- An operation sequence on a 3-frame pool: page 1 is fetched,
unpinned and deleted (the delete leaves the freed frame's page id at 1),
then page 1 is fetched again into a different frame and unpinned, and
two more fetches force the stale frame out of the free list. -/
def c4Ops : List BPMOp :=
  [BPMOp.fetch 1, BPMOp.unpin 1 false, BPMOp.delete 1,
   BPMOp.fetch 1, BPMOp.unpin 1 false, BPMOp.fetch 2, BPMOp.fetch 3]

/-- A pool of one frame holding page 5, unpinned and dirty: the next
miss must evict it with a write-back. -/
def c5State : BufferPoolManager :=
  runOps 1 [BPMOp.fetch 5, BPMOp.unpin 5 true]

/-- A pool of two frames, one holding page 7 unpinned and dirty, the
other free. -/
def c8State : BufferPoolManager :=
  runOps 2 [BPMOp.fetch 7, BPMOp.unpin 7 true]

/-- The cross-structure state invariant the pool maintains on every
reachable state: frames on the free list or tracked by the replacer are
unpinned, page-table frames are off the free list, the replacer and the
free list are disjoint and duplicate-free, pin counts never go
negative, every page-table entry's frame stores the entry's key as its
page id, and all tracked indices are in range. -/
structure Inv (s : BufferPoolManager) : Prop where
  free_pin : ∀ f ∈ s.free_list, (getPage s f).pin_count = 0
  repl_pin : ∀ f ∈ s.replacer, (getPage s f).pin_count = 0
  table_free : ∀ e ∈ s.page_table, e.2 ∉ s.free_list
  repl_free : ∀ f ∈ s.replacer, f ∉ s.free_list
  pin_nonneg : ∀ f : FrameId, 0 ≤ (getPage s f).pin_count
  free_nodup : s.free_list.Nodup
  repl_nodup : s.replacer.Nodup
  table_pid : ∀ e ∈ s.page_table, (getPage s e.2).page_id = e.1
  free_lt : ∀ f ∈ s.free_list, f < s.pages.length
  repl_lt : ∀ f ∈ s.replacer, f < s.pages.length
  table_lt : ∀ e ∈ s.page_table, e.2 < s.pages.length

theorem getD_set_self (l : List Page) (i : Nat) (a : Page) (h : i < l.length) :
    (l.set i a).getD i default = a := by
  unfold List.getD
  rw [List.get?_eq_getElem?, List.getElem?_set_eq_of_lt a h]
  rfl

theorem getD_set_diff (l : List Page) (i j : Nat) (a : Page) (h : i ≠ j) :
    (l.set i a).getD j default = l.getD j default := by
  unfold List.getD
  rw [List.get?_eq_getElem?, List.getElem?_set_ne h, ← List.get?_eq_getElem?]

theorem getD_set_oob (l : List Page) (i j : Nat) (a : Page) (h : l.length ≤ i) :
    (l.set i a).getD j default = l.getD j default := by
  rw [List.set_eq_of_length_le h]

theorem ptFind_mem {pt : List (PageId × FrameId)} {id : PageId} {f : FrameId}
    (h : ptFind pt id = some f) : (id, f) ∈ pt := by
  unfold ptFind at h
  cases hfind : pt.find? (fun e => e.1 == id) with
  | none => rw [hfind] at h; cases h
  | some e =>
    rw [hfind] at h
    have hmem := List.mem_of_find?_eq_some hfind
    have hp := List.find?_some hfind
    have h1 : e.1 = id := by exact_mod_cast eq_of_beq hp
    have h2 : e.2 = f := by simpa using h
    have he : e = (id, f) := by
      cases e
      simp_all
    rwa [he] at hmem

theorem mem_ptRemove {pt : List (PageId × FrameId)} {id : PageId} {e : PageId × FrameId}
    (h : e ∈ ptRemove pt id) : e ∈ pt ∧ e.1 ≠ id := by
  unfold ptRemove at h
  simp [List.mem_filter] at h
  exact h

theorem mem_ptInsert {pt : List (PageId × FrameId)} {id : PageId} {f : FrameId}
    {e : PageId × FrameId} (h : e ∈ ptInsert pt id f) :
    e = (id, f) ∨ (e ∈ pt ∧ e.1 ≠ id) := by
  unfold ptInsert at h
  rcases List.mem_cons.1 h with h1 | h1
  · exact Or.inl h1
  · exact Or.inr (mem_ptRemove h1)

theorem mem_lruErase {r : List FrameId} {f g : FrameId} (h : g ∈ lruErase r f) :
    g ∈ r ∧ g ≠ f := by
  unfold lruErase at h
  simp [List.mem_filter] at h
  exact h

theorem lruErase_nodup {r : List FrameId} (f : FrameId) (h : r.Nodup) :
    (lruErase r f).Nodup := h.filter _

theorem mem_lruInsert {r : List FrameId} {f g : FrameId} (h : g ∈ lruInsert r f) :
    g ∈ r ∨ g = f := by
  unfold lruInsert at h
  rcases List.mem_append.1 h with h1 | h1
  · exact Or.inl (List.mem_of_mem_filter h1)
  · simp at h1
    exact Or.inr h1

theorem lruInsert_nodup {r : List FrameId} (f : FrameId) (h : r.Nodup) :
    (lruInsert r f).Nodup := by
  unfold lruInsert
  rw [List.nodup_append]
  refine ⟨h.filter _, List.nodup_singleton f, ?_⟩
  intro a ha hb
  simp at hb
  subst hb
  simp [List.mem_filter] at ha

theorem getVictim_some {s : BufferPoolManager} {f : FrameId} {s1 : BufferPoolManager}
    (h : GetVictimPage s = (some f, s1)) :
    s1.pages = s.pages ∧ s1.page_table = s.page_table ∧ s1.disk = s.disk ∧
    ((s.free_list = f :: s1.free_list ∧ s1.replacer = s.replacer) ∨
     (s.free_list = [] ∧ s1.free_list = [] ∧ s.replacer = f :: s1.replacer)) := by
  unfold GetVictimPage at h
  cases hfl : s.free_list with
  | nil =>
    rw [hfl] at h
    by_cases hr : s.replacer.length = 0
    · rw [if_pos hr] at h
      simp at h
    · rw [if_neg hr] at h
      cases hrep : s.replacer with
      | nil => simp [hrep] at hr
      | cons a r1 =>
        rw [hrep] at h
        unfold lruVictim at h
        simp at h
        obtain ⟨h1, h2⟩ := h
        subst h1
        subst h2
        simp [hfl, hrep]
  | cons a fl1 =>
    rw [hfl] at h
    simp at h
    obtain ⟨h1, h2⟩ := h
    subst h1
    subst h2
    simp [hfl]

@[simp]
theorem getPage_mk (pg : List Page) (pt : List (PageId × FrameId)) (r fl : List FrameId)
    (d : Disk) (g : FrameId) :
    getPage { pages := pg, page_table := pt, replacer := r, free_list := fl, disk := d } g
      = pg.getD g default := rfl

theorem inv_install {s : BufferPoolManager} (hInv : Inv s)
    {f : FrameId} {s1 : BufferPoolManager} (hv : GetVictimPage s = (some f, s1))
    (newKey : PageId) (p : Page) (hpin : p.pin_count = 1) (hpid : p.page_id = newKey)
    (d : Disk) :
    Inv { s1 with pages := s1.pages.set f p,
                  page_table := ptInsert (ptRemove s1.page_table (getPage s1 f).page_id) newKey f,
                  disk := d } := by
  obtain ⟨hpg, hpt, -, hcase⟩ := getVictim_some hv
  have hgp : ∀ g : FrameId, getPage s1 g = getPage s g := by
    intro g
    unfold getPage
    rw [hpg]
  have hflen : f < s.pages.length := by
    rcases hcase with ⟨hfl, -⟩ | ⟨-, -, hrep⟩
    · exact hInv.free_lt f (by rw [hfl]; exact List.mem_cons_self f _)
    · exact hInv.repl_lt f (by rw [hrep]; exact List.mem_cons_self f _)
  have hfree1 : ∀ g ∈ s1.free_list, g ∈ s.free_list ∧ g ≠ f := by
    rcases hcase with ⟨hfl, -⟩ | ⟨-, hfl1, -⟩
    · intro g hg
      refine ⟨by rw [hfl]; exact List.mem_cons_of_mem f hg, ?_⟩
      have hnd := hInv.free_nodup
      rw [hfl] at hnd
      intro hgf
      subst hgf
      exact (List.nodup_cons.1 hnd).1 hg
    · intro g hg
      rw [hfl1] at hg
      cases hg
  have hrepl1 : ∀ g ∈ s1.replacer, g ∈ s.replacer ∧ g ≠ f := by
    rcases hcase with ⟨hfl, hrep⟩ | ⟨-, -, hrep⟩
    · intro g hg
      rw [hrep] at hg
      refine ⟨hg, ?_⟩
      intro hgf
      subst hgf
      exact hInv.repl_free g hg (by rw [hfl]; exact List.mem_cons_self g _)
    · intro g hg
      refine ⟨by rw [hrep]; exact List.mem_cons_of_mem f hg, ?_⟩
      have hnd := hInv.repl_nodup
      rw [hrep] at hnd
      intro hgf
      subst hgf
      exact (List.nodup_cons.1 hnd).1 hg
  have hfnodup : s1.free_list.Nodup := by
    rcases hcase with ⟨hfl, -⟩ | ⟨-, hfl1, -⟩
    · have hnd := hInv.free_nodup
      rw [hfl] at hnd
      exact (List.nodup_cons.1 hnd).2
    · rw [hfl1]
      exact List.nodup_nil
  have hrnodup : s1.replacer.Nodup := by
    rcases hcase with ⟨-, hrep⟩ | ⟨-, -, hrep⟩
    · rw [hrep]
      exact hInv.repl_nodup
    · have hnd := hInv.repl_nodup
      rw [hrep] at hnd
      exact (List.nodup_cons.1 hnd).2
  have htmem : ∀ e ∈ ptInsert (ptRemove s1.page_table (getPage s1 f).page_id) newKey f,
      e = (newKey, f) ∨ (e ∈ s.page_table ∧ e.1 ≠ (getPage s f).page_id) := by
    intro e he
    rcases mem_ptInsert he with h1 | ⟨h1, -⟩
    · exact Or.inl h1
    · have h2 := mem_ptRemove h1
      rw [hpt, hgp f] at h2
      exact Or.inr h2
  have htne : ∀ e ∈ s.page_table, e.1 ≠ (getPage s f).page_id → e.2 ≠ f := by
    intro e he hk hef
    apply hk
    rw [← hInv.table_pid e he, hef]
  constructor
  · intro g hg
    simp only [getPage_mk]
    obtain ⟨hgs, hgf⟩ := hfree1 g hg
    rw [hpg, getD_set_diff _ _ _ _ (Ne.symm hgf)]
    exact hInv.free_pin g hgs
  · intro g hg
    simp only [getPage_mk]
    obtain ⟨hgs, hgf⟩ := hrepl1 g hg
    rw [hpg, getD_set_diff _ _ _ _ (Ne.symm hgf)]
    exact hInv.repl_pin g hgs
  · intro e he hf
    rcases htmem e he with rfl | ⟨hes, hek⟩
    · exact (hfree1 f hf).2 rfl
    · exact hInv.table_free e hes (hfree1 e.2 hf).1
  · intro g hg hgf
    exact hInv.repl_free g (hrepl1 g hg).1 (hfree1 g hgf).1
  · intro g
    simp only [getPage_mk]
    by_cases hgf : g = f
    · subst hgf
      rw [hpg, getD_set_self _ _ _ hflen, hpin]
      norm_num
    · rw [hpg, getD_set_diff _ _ _ _ (fun h => hgf h.symm)]
      exact hInv.pin_nonneg g
  · exact hfnodup
  · exact hrnodup
  · intro e he
    simp only [getPage_mk]
    rcases htmem e he with rfl | ⟨hes, hek⟩
    · rw [hpg, getD_set_self _ _ _ hflen, hpid]
    · have hef : e.2 ≠ f := htne e hes hek
      rw [hpg, getD_set_diff _ _ _ _ (Ne.symm hef)]
      exact hInv.table_pid e hes
  · intro g hg
    simp only [List.length_set]
    rw [hpg]
    exact hInv.free_lt g (hfree1 g hg).1
  · intro g hg
    simp only [List.length_set]
    rw [hpg]
    exact hInv.repl_lt g (hrepl1 g hg).1
  · intro e he
    simp only [List.length_set]
    rw [hpg]
    rcases htmem e he with rfl | ⟨hes, -⟩
    · exact hflen
    · exact hInv.table_lt e hes

theorem mem_lruInsert_elim {r : List FrameId} {f g : FrameId} (h : g ∈ lruInsert r f) :
    g = f ∨ (g ∈ r ∧ g ≠ f) := by
  unfold lruInsert at h
  rcases List.mem_append.1 h with h1 | h1
  · have h2 : g ∈ r ∧ g ≠ f := by
      simp [List.mem_filter] at h1
      exact h1
    exact Or.inr h2
  · simp at h1
    exact Or.inl h1

theorem inv_set_same_pin_pid {s : BufferPoolManager} (hInv : Inv s) (f : FrameId)
    (p1 : Page)
    (hpin : p1.pin_count = (getPage s f).pin_count)
    (hpid : p1.page_id = (getPage s f).page_id)
    (d : Disk) :
    Inv { s with pages := s.pages.set f p1, disk := d } := by
  have key : ∀ g : FrameId,
      ((s.pages.set f p1).getD g default).pin_count = (getPage s g).pin_count ∧
      ((s.pages.set f p1).getD g default).page_id = (getPage s g).page_id := by
    intro g
    by_cases hlt : f < s.pages.length
    · by_cases hgf : g = f
      · subst hgf
        rw [getD_set_self _ _ _ hlt]
        exact ⟨hpin, hpid⟩
      · rw [getD_set_diff _ _ _ _ (fun h => hgf h.symm)]
        exact ⟨rfl, rfl⟩
    · rw [getD_set_oob _ _ _ _ (Nat.le_of_not_lt hlt)]
      exact ⟨rfl, rfl⟩
  constructor
  · intro g hg
    simp only [getPage_mk]
    rw [(key g).1]
    exact hInv.free_pin g hg
  · intro g hg
    simp only [getPage_mk]
    rw [(key g).1]
    exact hInv.repl_pin g hg
  · exact hInv.table_free
  · exact hInv.repl_free
  · intro g
    simp only [getPage_mk]
    rw [(key g).1]
    exact hInv.pin_nonneg g
  · exact hInv.free_nodup
  · exact hInv.repl_nodup
  · intro e he
    simp only [getPage_mk]
    rw [(key e.2).2]
    exact hInv.table_pid e he
  · intro g hg
    simp only [List.length_set]
    exact hInv.free_lt g hg
  · intro g hg
    simp only [List.length_set]
    exact hInv.repl_lt g hg
  · intro e he
    simp only [List.length_set]
    exact hInv.table_lt e he

theorem inv_fetch {s : BufferPoolManager} (hInv : Inv s) (id : PageId) :
    Inv (FetchPage s id).2.1 := by
  unfold FetchPage
  split
  case h_1 f hf =>
    have hmem := ptFind_mem hf
    have hlen := hInv.table_lt _ hmem
    have hnfree := hInv.table_free _ hmem
    constructor
    · intro g hg
      simp only [getPage_mk]
      have hgf : g ≠ f := by
        intro h
        subst h
        exact hnfree hg
      rw [getD_set_diff _ _ _ _ (Ne.symm hgf)]
      exact hInv.free_pin g hg
    · intro g hg
      obtain ⟨hgr, hgf⟩ := mem_lruErase hg
      simp only [getPage_mk]
      rw [getD_set_diff _ _ _ _ (Ne.symm hgf)]
      exact hInv.repl_pin g hgr
    · exact hInv.table_free
    · intro g hg
      exact hInv.repl_free g (mem_lruErase hg).1
    · intro g
      simp only [getPage_mk]
      by_cases hgf : g = f
      · subst hgf
        rw [getD_set_self _ _ _ hlen]
        show 0 ≤ (getPage s g).pin_count + 1
        have := hInv.pin_nonneg g
        omega
      · rw [getD_set_diff _ _ _ _ (fun h => hgf h.symm)]
        exact hInv.pin_nonneg g
    · exact hInv.free_nodup
    · exact lruErase_nodup f hInv.repl_nodup
    · intro e he
      simp only [getPage_mk]
      by_cases hef : e.2 = f
      · rw [hef, getD_set_self _ _ _ hlen]
        have := hInv.table_pid e he
        rw [hef] at this
        exact this
      · rw [getD_set_diff _ _ _ _ (Ne.symm hef)]
        exact hInv.table_pid e he
    · intro g hg
      simp only [List.length_set]
      exact hInv.free_lt g hg
    · intro g hg
      simp only [List.length_set]
      exact hInv.repl_lt g (mem_lruErase hg).1
    · intro e he
      simp only [List.length_set]
      exact hInv.table_lt e he
  case h_2 hf =>
    split
    case h_1 heq =>
      exact hInv
    case h_2 f s1 heq =>
      exact inv_install hInv heq id _ rfl rfl _

theorem inv_new {s : BufferPoolManager} (hInv : Inv s) : Inv (NewPage s).2.1 := by
  unfold NewPage
  split
  case h_1 heq =>
    exact hInv
  case h_2 f s1 heq =>
    exact inv_install hInv heq _ _ rfl rfl _

theorem inv_unpin {s : BufferPoolManager} (hInv : Inv s) (id : PageId) (d : Bool) :
    Inv (UnpinPage s id d).2 := by
  unfold UnpinPage
  split
  case h_1 hf => exact hInv
  case h_2 f hf =>
    have hmem := ptFind_mem hf
    have hlen := hInv.table_lt _ hmem
    have hnfree := hInv.table_free _ hmem
    dsimp only
    split
    case isTrue hple =>
      exact inv_set_same_pin_pid hInv f { getPage s f with is_dirty := d } rfl rfl s.disk
    case isFalse hple =>
      have hppos : 0 < (getPage s f).pin_count := lt_of_not_le hple
      have hfnotr : f ∉ s.replacer := by
        intro hr
        have := hInv.repl_pin f hr
        omega
      split
      case isTrue hz =>
        constructor
        · intro g hg
          simp only [getPage_mk]
          have hgf : g ≠ f := fun h => hnfree (h ▸ hg)
          rw [getD_set_diff _ _ _ _ (Ne.symm hgf)]
          exact hInv.free_pin g hg
        · intro g hg
          simp only [getPage_mk]
          rcases mem_lruInsert_elim hg with hgf | ⟨hgr, hgf⟩
          · subst hgf
            rw [getD_set_self _ _ _ hlen]
            exact hz
          · rw [getD_set_diff _ _ _ _ (Ne.symm hgf)]
            exact hInv.repl_pin g hgr
        · exact hInv.table_free
        · intro g hg
          rcases mem_lruInsert_elim hg with hgf | ⟨hgr, -⟩
          · subst hgf
            exact hnfree
          · exact hInv.repl_free g hgr
        · intro g
          simp only [getPage_mk]
          by_cases hgf : g = f
          · subst hgf
            rw [getD_set_self _ _ _ hlen]
            show 0 ≤ (getPage s g).pin_count - 1
            omega
          · rw [getD_set_diff _ _ _ _ (fun h => hgf h.symm)]
            exact hInv.pin_nonneg g
        · exact hInv.free_nodup
        · exact lruInsert_nodup f hInv.repl_nodup
        · intro e he
          simp only [getPage_mk]
          by_cases hef : e.2 = f
          · rw [hef, getD_set_self _ _ _ hlen]
            have := hInv.table_pid e he
            rw [hef] at this
            exact this
          · rw [getD_set_diff _ _ _ _ (Ne.symm hef)]
            exact hInv.table_pid e he
        · intro g hg
          simp only [List.length_set]
          exact hInv.free_lt g hg
        · intro g hg
          simp only [List.length_set]
          rcases mem_lruInsert_elim hg with hgf | ⟨hgr, -⟩
          · subst hgf
            exact hlen
          · exact hInv.repl_lt g hgr
        · intro e he
          simp only [List.length_set]
          exact hInv.table_lt e he
      case isFalse hz =>
        constructor
        · intro g hg
          simp only [getPage_mk]
          have hgf : g ≠ f := fun h => hnfree (h ▸ hg)
          rw [getD_set_diff _ _ _ _ (Ne.symm hgf)]
          exact hInv.free_pin g hg
        · intro g hg
          simp only [getPage_mk]
          have hgf : g ≠ f := fun h => hfnotr (h ▸ hg)
          rw [getD_set_diff _ _ _ _ (Ne.symm hgf)]
          exact hInv.repl_pin g hg
        · exact hInv.table_free
        · exact hInv.repl_free
        · intro g
          simp only [getPage_mk]
          by_cases hgf : g = f
          · subst hgf
            rw [getD_set_self _ _ _ hlen]
            show 0 ≤ (getPage s g).pin_count - 1
            omega
          · rw [getD_set_diff _ _ _ _ (fun h => hgf h.symm)]
            exact hInv.pin_nonneg g
        · exact hInv.free_nodup
        · exact hInv.repl_nodup
        · intro e he
          simp only [getPage_mk]
          by_cases hef : e.2 = f
          · rw [hef, getD_set_self _ _ _ hlen]
            have := hInv.table_pid e he
            rw [hef] at this
            exact this
          · rw [getD_set_diff _ _ _ _ (Ne.symm hef)]
            exact hInv.table_pid e he
        · intro g hg
          simp only [List.length_set]
          exact hInv.free_lt g hg
        · intro g hg
          simp only [List.length_set]
          exact hInv.repl_lt g hg
        · intro e he
          simp only [List.length_set]
          exact hInv.table_lt e he

theorem inv_flush {s : BufferPoolManager} (hInv : Inv s) (id : PageId) :
    Inv (FlushPage s id).2.1 := by
  unfold FlushPage
  split
  case h_1 hf => exact hInv
  case h_2 f hf =>
    dsimp only
    split
    case isTrue hinv => exact hInv
    case isFalse hinv =>
      split
      case isTrue hd =>
        exact inv_set_same_pin_pid hInv f { getPage s f with is_dirty := false } rfl rfl
          (diskWrite s.disk id (getPage s f).data)
      case isFalse hd => exact hInv

theorem inv_delete {s : BufferPoolManager} (hInv : Inv s) (id : PageId) :
    Inv (DeletePage s id).2.1 := by
  unfold DeletePage
  split
  case h_1 f hf =>
    have hmem := ptFind_mem hf
    have hlen := hInv.table_lt _ hmem
    have hnfree := hInv.table_free _ hmem
    have hpidf : (getPage s f).page_id = id := hInv.table_pid _ hmem
    dsimp only
    split
    case isTrue hppos => exact hInv
    case isFalse hnp =>
      have hpz : (getPage s f).pin_count = 0 := by
        have h0 := hInv.pin_nonneg f
        have h1 : ¬ 0 < (getPage s f).pin_count := hnp
        omega
      have hne : ∀ e ∈ ptRemove s.page_table id, e ∈ s.page_table ∧ e.2 ≠ f := by
        intro e he
        obtain ⟨h1, h2⟩ := mem_ptRemove he
        refine ⟨h1, ?_⟩
        intro hef
        apply h2
        rw [← hInv.table_pid e h1, hef, hpidf]
      constructor
      · intro g hg
        simp only [getPage_mk]
        rcases List.mem_append.1 hg with hg1 | hg1
        · have hgf : g ≠ f := fun h => hnfree (h ▸ hg1)
          rw [getD_set_diff _ _ _ _ (Ne.symm hgf)]
          exact hInv.free_pin g hg1
        · have hgf : g = f := by simpa using hg1
          subst hgf
          rw [getD_set_self _ _ _ hlen]
          exact hpz
      · intro g hg
        obtain ⟨hgr, hgf⟩ := mem_lruErase hg
        simp only [getPage_mk]
        rw [getD_set_diff _ _ _ _ (Ne.symm hgf)]
        exact hInv.repl_pin g hgr
      · intro e he hf2
        obtain ⟨h1, h2⟩ := hne e he
        rcases List.mem_append.1 hf2 with h3 | h3
        · exact hInv.table_free e h1 h3
        · exact h2 (by simpa using h3)
      · intro g hg hf2
        obtain ⟨hgr, hgf⟩ := mem_lruErase hg
        rcases List.mem_append.1 hf2 with h3 | h3
        · exact hInv.repl_free g hgr h3
        · exact hgf (by simpa using h3)
      · intro g
        simp only [getPage_mk]
        by_cases hgf : g = f
        · subst hgf
          rw [getD_set_self _ _ _ hlen]
          show 0 ≤ (getPage s g).pin_count
          exact hInv.pin_nonneg g
        · rw [getD_set_diff _ _ _ _ (fun h => hgf h.symm)]
          exact hInv.pin_nonneg g
      · rw [List.nodup_append]
        refine ⟨hInv.free_nodup, List.nodup_singleton f, ?_⟩
        intro a ha hb
        have hab : a = f := by simpa using hb
        subst hab
        exact hnfree ha
      · exact lruErase_nodup f hInv.repl_nodup
      · intro e he
        obtain ⟨h1, h2⟩ := hne e he
        simp only [getPage_mk]
        rw [getD_set_diff _ _ _ _ (Ne.symm h2)]
        exact hInv.table_pid e h1
      · intro g hg
        simp only [List.length_set]
        rcases List.mem_append.1 hg with hg1 | hg1
        · exact hInv.free_lt g hg1
        · have hgf : g = f := by simpa using hg1
          subst hgf
          exact hlen
      · intro g hg
        simp only [List.length_set]
        exact hInv.repl_lt g (mem_lruErase hg).1
      · intro e he
        simp only [List.length_set]
        exact hInv.table_lt e (hne e he).1
  case h_2 hf => exact hInv

theorem inv_applyOp {s : BufferPoolManager} (hInv : Inv s) (op : BPMOp) :
    Inv (applyOp s op) := by
  cases op with
  | fetch id => exact inv_fetch hInv id
  | unpin id d => exact inv_unpin hInv id d
  | flush id => exact inv_flush hInv id
  | delete id => exact inv_delete hInv id
  | new => exact inv_new hInv

theorem inv_foldl (ops : List BPMOp) :
    ∀ s : BufferPoolManager, Inv s → Inv (ops.foldl applyOp s) := by
  induction ops with
  | nil => intro s h; exact h
  | cons op rest ih => intro s h; exact ih _ (inv_applyOp h op)

theorem inv_init (n : Nat) : Inv (initBPM n) := by
  have hget : ∀ g : FrameId, getPage (initBPM n) g = default := by
    intro g
    unfold getPage initBPM
    simp only
    by_cases hg : g < n
    · unfold List.getD
      rw [List.get?_eq_getElem?, List.getElem?_replicate]
      simp [hg]
    · unfold List.getD
      rw [List.get?_eq_getElem?, List.getElem?_replicate]
      simp [hg]
  constructor
  · intro g hg
    rw [hget g]
    rfl
  · intro g hg
    cases hg
  · intro e he
    cases he
  · intro g hg
    cases hg
  · intro g
    rw [hget g]
    exact le_refl 0
  · show (List.range n).Nodup
    exact List.nodup_range n
  · show (List.nil : List FrameId).Nodup
    exact List.nodup_nil
  · intro e he
    cases he
  · intro g hg
    simp only [initBPM, List.length_replicate]
    exact List.mem_range.1 hg
  · intro g hg
    cases hg
  · intro e he
    cases he

theorem inv_reachable {n : Nat} {s : BufferPoolManager} (h : Reachable n s) : Inv s := by
  obtain ⟨ops, hops⟩ := h
  rw [← hops]
  exact inv_foldl ops _ (inv_init n)

/-- Claim C1, as stated, fails on the code: in a pool where page 0 is
resident with pin count 1 and the dirty flag set, the call
UnpinPage(0, is_dirty=false) succeeds and clears the frame's dirty
flag, so the flag is not sticky under unpin. -/
theorem c1_dirty_not_sticky_counterexample :
    (getPage c1State 0).is_dirty = true ∧
    ptFind c1State.page_table 0 = some 0 ∧
    (UnpinPage c1State 0 false).1 = true ∧
    (getPage (UnpinPage c1State 0 false).2 0).is_dirty = false := by decide

/-- Claim C1 (amended): whenever the id is resident, UnpinPage assigns
the frame's dirty flag from its is_dirty argument unconditionally (even
on the failing pin-count-zero path), so an unpin with is_dirty=false
overwrites a previously set dirty flag rather than leaving it set. -/
theorem c1_unpin_assigns_dirty (s : BufferPoolManager) (id : PageId) (d : Bool)
    (f : FrameId) (hf : ptFind s.page_table id = some f)
    (hlen : f < s.pages.length) :
    (getPage (UnpinPage s id d).2 f).is_dirty = d := by
  unfold UnpinPage
  split
  case h_1 heq =>
    rw [heq] at hf
    cases hf
  case h_2 g heq =>
    rw [heq] at hf
    injection hf with hgf
    subst hgf
    dsimp only
    split
    · simp only [getPage_mk, getPage]
      rw [getD_set_self _ _ _ hlen]
    · split
      · simp only [getPage_mk, getPage]
        rw [getD_set_self _ _ _ hlen]
      · simp only [getPage_mk, getPage]
        rw [getD_set_self _ _ _ hlen]

/-- Witness for c1_unpin_assigns_dirty: the concrete pool c1State with
page 0 resident and dirty, unpinned with is_dirty=false. -/
theorem c1_unpin_assigns_dirty_witness :
    ptFind c1State.page_table 0 = some 0 ∧ 0 < c1State.pages.length ∧
    (getPage (UnpinPage c1State 0 false).2 0).is_dirty = false :=
  ⟨by decide, by decide, c1_unpin_assigns_dirty c1State 0 false 0 (by decide) (by decide)⟩

/-- Claim C2, as stated, fails on the code: page 0 is resident with pin
count 0 and the dirty flag set; UnpinPage(0, is_dirty=false) returns
false but does not leave the pool unchanged — it clears the frame's
dirty flag. -/
theorem c2_unpin_zero_changes_state_counterexample :
    (getPage c2State 0).pin_count = 0 ∧
    (getPage c2State 0).is_dirty = true ∧
    (UnpinPage c2State 0 false).1 = false ∧
    ¬ (UnpinPage c2State 0 false).2 = c2State := by decide

/-- Claim C2 (amended): on a resident page with non-positive pin count,
UnpinPage returns false and leaves the page table, replacer, free list,
disk, and every frame field unchanged except the found frame's dirty
flag, which is assigned from the is_dirty argument. -/
theorem c2_unpin_zero_only_dirty (s : BufferPoolManager) (id : PageId) (d : Bool)
    (f : FrameId) (hf : ptFind s.page_table id = some f)
    (hp : (getPage s f).pin_count ≤ 0) :
    UnpinPage s id d =
      (false, { s with pages := s.pages.set f { getPage s f with is_dirty := d } }) := by
  unfold UnpinPage
  split
  case h_1 heq =>
    rw [heq] at hf
    cases hf
  case h_2 g heq =>
    rw [heq] at hf
    injection hf with hgf
    subst hgf
    dsimp only
    split
    case isTrue hple => rfl
    case isFalse hple => exact absurd hp hple

/-- Witness for c2_unpin_zero_only_dirty at the concrete pool c2State. -/
theorem c2_unpin_zero_only_dirty_witness :
    ptFind c2State.page_table 0 = some 0 ∧ (getPage c2State 0).pin_count ≤ 0 ∧
    UnpinPage c2State 0 false =
      (false, { c2State with
                  pages := c2State.pages.set 0 { getPage c2State 0 with is_dirty := false } }) :=
  ⟨by decide, by decide, c2_unpin_zero_only_dirty c2State 0 false 0 (by decide) (by decide)⟩

/-- Claim C3, as stated, fails on the code: page 0 is resident with pin
count 1, and DeletePage(0) returns false and issues no disk call at all
— DeallocatePage is not requested in the resident-and-pinned case. -/
theorem c3_delete_pinned_no_dealloc_counterexample :
    ptFind c3State.page_table 0 = some 0 ∧
    (getPage c3State 0).pin_count = 1 ∧
    DeletePage c3State 0 = (false, c3State, []) := by decide

/-- Claim C3 (amended): DeletePage returns false exactly when the id is
resident with positive pin count; it requests DeallocatePage (its only
disk call) exactly in the returning-true cases — whether or not the id
is resident — and on the pinned failure it makes no disk call. -/
theorem c3_delete_dealloc (s : BufferPoolManager) (id : PageId) :
    (((DeletePage s id).1 = false ∧ (DeletePage s id).2.2 = []) ∨
     ((DeletePage s id).1 = true ∧ (DeletePage s id).2.2 = [DiskOp.dealloc id])) ∧
    ((DeletePage s id).1 = false ↔
      ∃ f, ptFind s.page_table id = some f ∧ 0 < (getPage s f).pin_count) := by
  unfold DeletePage
  split
  case h_1 f hf =>
    dsimp only
    split
    case isTrue hp =>
      refine ⟨Or.inl ⟨rfl, rfl⟩, ?_, ?_⟩
      · intro _
        exact ⟨f, hf, hp⟩
      · intro _
        rfl
    case isFalse hp =>
      refine ⟨Or.inr ⟨rfl, rfl⟩, ?_, ?_⟩
      · intro h
        simp at h
      · intro ⟨g, hg, hgp⟩
        rw [hf] at hg
        injection hg with h
        subst h
        exact absurd hgp hp
  case h_2 hf =>
    refine ⟨Or.inr ⟨rfl, rfl⟩, ?_, ?_⟩
    · intro h
      simp at h
    · intro ⟨g, hg, hgp⟩
      rw [hf] at hg
      cases hg

/-- Claim C4: the replacer-membership invariant is the spec's and the
code's own intent (the free-list branch of GetVictimPage asserts the
frame id is INVALID), but the code violates it: DeletePage does not
reset the freed frame's page id, so after the c4Ops sequence the
assert's condition is false on the state where the stale frame is next
in the free list, and in the final state frame 1 is tracked by the
replacer with pin count 0 while its page id 1 has no page-table entry —
the replacer set differs from the set of Resident-Unpinned frames. -/
theorem c4_replacer_invariant_broken :
    victimIdAssert (runOps 3 (c4Ops.take 6)) = false ∧
    (runOps 3 c4Ops).replacer = [1] ∧
    (getPage (runOps 3 c4Ops) 1).pin_count = 0 ∧
    (getPage (runOps 3 c4Ops) 1).page_id = 1 ∧
    ptFind (runOps 3 c4Ops).page_table 1 = none := by decide

/-- Claim C6: when the free list is non-empty, the victim-selection
helper yields the free-list front, shrinks the free list by exactly
that frame, and leaves the replacer untouched. -/
theorem c6_free_first (s : BufferPoolManager) (h : s.free_list ≠ []) :
    (GetVictimPage s).1 = s.free_list.head? ∧
    (GetVictimPage s).2.free_list = s.free_list.tail ∧
    (GetVictimPage s).2.replacer = s.replacer := by
  rcases hfl : s.free_list with _ | ⟨f, rest⟩
  · exact absurd hfl h
  · unfold GetVictimPage
    rw [hfl]
    simp

/-- Witness for c6_free_first at a fresh two-frame pool. -/
theorem c6_free_first_witness :
    (initBPM 2).free_list ≠ [] ∧
    ((GetVictimPage (initBPM 2)).1 = (initBPM 2).free_list.head? ∧
     (GetVictimPage (initBPM 2)).2.free_list = (initBPM 2).free_list.tail ∧
     (GetVictimPage (initBPM 2)).2.replacer = (initBPM 2).replacer) :=
  ⟨by decide, c6_free_first (initBPM 2) (by decide)⟩

/-- Claim C10: on pool exhaustion (free list empty and replacer empty),
NewPage returns no handle, makes no disk-collaborator call at all — in
particular AllocatePage is never reached, so no logical id is consumed
— and leaves the pool state entirely unchanged. -/
theorem c10_new_exhaustion (s : BufferPoolManager)
    (hf : s.free_list = []) (hr : s.replacer = []) :
    NewPage s = (none, s, []) := by
  unfold NewPage GetVictimPage
  rw [hf, hr]
  simp

/-- Witness for c10_new_exhaustion at the empty pool. -/
theorem c10_new_exhaustion_witness :
    (initBPM 0).free_list = [] ∧ (initBPM 0).replacer = [] ∧
    NewPage (initBPM 0) = (none, initBPM 0, []) :=
  ⟨by decide, by decide, c10_new_exhaustion (initBPM 0) (by decide) (by decide)⟩

theorem fetch_miss_trace (s : BufferPoolManager) (id : PageId) {f : FrameId}
    {s1 : BufferPoolManager}
    (hmiss : ptFind s.page_table id = none) (hv : GetVictimPage s = (some f, s1)) :
    (FetchPage s id).2.2 =
      (if (getPage s f).is_dirty then
        [DiskOp.write (getPage s f).page_id (getPage s f).data] else [])
        ++ [DiskOp.read id] := by
  obtain ⟨hpages, -, -, -⟩ := getVictim_some hv
  have hpg : getPage s1 f = getPage s f := by
    unfold getPage
    rw [hpages]
  unfold FetchPage
  rw [hmiss, hv]
  dsimp only
  rw [hpg]

theorem new_trace (s : BufferPoolManager) {f : FrameId} {s1 : BufferPoolManager}
    (hv : GetVictimPage s = (some f, s1)) :
    (NewPage s).2.2 =
      [DiskOp.alloc s.disk.nextId]
        ++ (if (getPage s f).is_dirty then
             [DiskOp.write (getPage s f).page_id (getPage s f).data] else []) := by
  obtain ⟨hpages, -, hdisk, -⟩ := getVictim_some hv
  have hpg : getPage s1 f = getPage s f := by
    unfold getPage
    rw [hpages]
  unfold NewPage
  rw [hv]
  dsimp only
  rw [hpg, hdisk]
  rfl

/-- Claim C5: in the FetchPage-miss and NewPage eviction paths, a dirty
victim triggers exactly one WritePage call, keyed by the victim's old
page id and carrying its current contents, and (in FetchPage) it
precedes the disk read that fills the frame for the new id; a clean
victim triggers no write-back. The full disk-call traces are stated. -/
theorem c5_eviction_writeback (s : BufferPoolManager) (id : PageId) (f : FrameId)
    (hmiss : ptFind s.page_table id = none)
    (hv : (GetVictimPage s).1 = some f) :
    ((getPage s f).is_dirty = true →
       (FetchPage s id).2.2 =
         [DiskOp.write (getPage s f).page_id (getPage s f).data, DiskOp.read id] ∧
       (NewPage s).2.2 =
         [DiskOp.alloc s.disk.nextId,
          DiskOp.write (getPage s f).page_id (getPage s f).data]) ∧
    ((getPage s f).is_dirty = false →
       (FetchPage s id).2.2 = [DiskOp.read id] ∧
       (NewPage s).2.2 = [DiskOp.alloc s.disk.nextId]) := by
  cases hgv : GetVictimPage s with
  | mk o s1 =>
    rw [hgv] at hv
    have ho : o = some f := by simpa using hv
    subst ho
    have hft := fetch_miss_trace s id hmiss hgv
    have hnt := new_trace s hgv
    constructor
    · intro hd
      rw [hd] at hft hnt
      simp only [if_true] at hft hnt
      exact ⟨hft, hnt⟩
    · intro hd
      rw [hd] at hft hnt
      simp at hft hnt
      exact ⟨hft, hnt⟩

/-- Witness for c5_eviction_writeback: a one-frame pool whose single
frame holds page 5, unpinned and dirty; fetching page 6 or creating a
new page evicts it with exactly one write-back keyed by 5. -/
theorem c5_eviction_writeback_witness :
    ptFind c5State.page_table 6 = none ∧
    (GetVictimPage c5State).1 = some 0 ∧
    (getPage c5State 0).is_dirty = true ∧
    (FetchPage c5State 6).2.2 =
      [DiskOp.write (getPage c5State 0).page_id (getPage c5State 0).data,
       DiskOp.read 6] ∧
    (NewPage c5State).2.2 =
      [DiskOp.alloc c5State.disk.nextId,
       DiskOp.write (getPage c5State 0).page_id (getPage c5State 0).data] :=
  ⟨by decide, by decide, by decide,
   ((c5_eviction_writeback c5State 6 0 (by decide) (by decide)).1 (by decide)).1,
   ((c5_eviction_writeback c5State 6 0 (by decide) (by decide)).1 (by decide)).2⟩

theorem getVictim_none_iff (s : BufferPoolManager) :
    (GetVictimPage s).1 = none ↔ s.free_list = [] ∧ s.replacer = [] := by
  unfold GetVictimPage
  rcases hfl : s.free_list with _ | ⟨f, rest⟩
  · rcases hrep : s.replacer with _ | ⟨a, r1⟩
    · simp [hfl, hrep]
    · simp [hfl, hrep, lruVictim]
  · simp [hfl]

theorem fetch_miss_fst (s : BufferPoolManager) (id : PageId)
    (hmiss : ptFind s.page_table id = none) :
    (FetchPage s id).1 = (GetVictimPage s).1 := by
  unfold FetchPage
  rw [hmiss]
  cases hgv : GetVictimPage s with
  | mk o s1 => cases o <;> rfl

theorem new_none_iff (s : BufferPoolManager) :
    (NewPage s).1 = none ↔ (GetVictimPage s).1 = none := by
  unfold NewPage
  cases hgv : GetVictimPage s with
  | mk o s1 => cases o <;> simp

theorem fetch_miss_pin (s : BufferPoolManager) (id : PageId) {f : FrameId}
    {s1 : BufferPoolManager}
    (hmiss : ptFind s.page_table id = none) (hv : GetVictimPage s = (some f, s1))
    (hlen : f < s1.pages.length) :
    (getPage (FetchPage s id).2.1 f).pin_count = 1 := by
  unfold FetchPage
  rw [hmiss, hv]
  dsimp only
  simp only [getPage_mk]
  rw [getD_set_self _ _ _ hlen]

theorem new_some (s : BufferPoolManager) {f : FrameId} {s1 : BufferPoolManager}
    (hv : GetVictimPage s = (some f, s1)) (hlen : f < s1.pages.length) :
    (NewPage s).1 = some ((diskAlloc s1.disk).1, f) ∧
    (getPage (NewPage s).2.1 f).pin_count = 1 := by
  unfold NewPage
  rw [hv]
  dsimp only
  refine ⟨rfl, ?_⟩
  simp only [getPage_mk]
  rw [getD_set_self _ _ _ hlen]

/-- Claim C7: on a miss (and for NewPage always), the operation returns
no handle exactly when the free list is empty and the replacer tracks
no frame; otherwise it returns a frame whose pin count is 1 in the
resulting state. -/
theorem c7_exhaustion (s : BufferPoolManager) (id : PageId)
    (hmiss : ptFind s.page_table id = none)
    (hwf : ∀ g ∈ s.free_list, g < s.pages.length)
    (hwr : ∀ g ∈ s.replacer, g < s.pages.length) :
    ((FetchPage s id).1 = none ↔ s.free_list = [] ∧ s.replacer = []) ∧
    ((NewPage s).1 = none ↔ s.free_list = [] ∧ s.replacer = []) ∧
    (∀ f : FrameId, (FetchPage s id).1 = some f →
        (getPage (FetchPage s id).2.1 f).pin_count = 1) ∧
    (∀ pr : PageId × FrameId, (NewPage s).1 = some pr →
        (getPage (NewPage s).2.1 pr.2).pin_count = 1) := by
  refine ⟨?_, ?_, ?_, ?_⟩
  · rw [fetch_miss_fst s id hmiss]
    exact getVictim_none_iff s
  · rw [new_none_iff s]
    exact getVictim_none_iff s
  · intro f hsome
    cases hgv : GetVictimPage s with
    | mk o s1 =>
      cases o with
      | none =>
        rw [fetch_miss_fst s id hmiss, hgv] at hsome
        simp at hsome
      | some g =>
        rw [fetch_miss_fst s id hmiss, hgv] at hsome
        have hgf : g = f := by simpa using hsome
        subst hgf
        have hlen : g < s1.pages.length := by
          obtain ⟨hpages, -, -, hcase⟩ := getVictim_some hgv
          rw [hpages]
          rcases hcase with ⟨hfl, -⟩ | ⟨-, -, hrep⟩
          · exact hwf g (by rw [hfl]; exact List.mem_cons_self g _)
          · exact hwr g (by rw [hrep]; exact List.mem_cons_self g _)
        exact fetch_miss_pin s id hmiss hgv hlen
  · intro pr hsome
    cases hgv : GetVictimPage s with
    | mk o s1 =>
      cases o with
      | none =>
        unfold NewPage at hsome
        rw [hgv] at hsome
        simp at hsome
      | some g =>
        have hlen : g < s1.pages.length := by
          obtain ⟨hpages, -, -, hcase⟩ := getVictim_some hgv
          rw [hpages]
          rcases hcase with ⟨hfl, -⟩ | ⟨-, -, hrep⟩
          · exact hwf g (by rw [hfl]; exact List.mem_cons_self g _)
          · exact hwr g (by rw [hrep]; exact List.mem_cons_self g _)
        obtain ⟨hfst, hpin⟩ := new_some s hgv hlen
        rw [hfst] at hsome
        injection hsome with h
        subst h
        exact hpin

/-- Witness for c7_exhaustion: a two-frame pool with one dirty unpinned
resident frame and one free frame, missing on page 9. -/
theorem c7_exhaustion_witness :
    ptFind c8State.page_table 9 = none ∧
    ¬ ((FetchPage c8State 9).1 = none) ∧
    (∀ f : FrameId, (FetchPage c8State 9).1 = some f →
        (getPage (FetchPage c8State 9).2.1 f).pin_count = 1) :=
  ⟨by decide,
   fun h => by
     have h2 := (c7_exhaustion c8State 9 (by decide) (by decide) (by decide)).1.1 h
     exact absurd h2.1 (by decide),
   (c7_exhaustion c8State 9 (by decide) (by decide) (by decide)).2.2.1⟩

/-- Claim C8: FlushPage fails exactly when the id is absent from the
page table or the stored id is the INVALID sentinel; on a successful
flush of a dirty frame it issues exactly one WritePage keyed by the
looked-up id with the frame's contents and clears the dirty flag; a
clean success changes nothing and issues no disk call; and in every
case the page table, replacer, free list and all pin counts are left
unchanged (flushing a pinned page succeeds without unpinning it). -/
theorem c8_flush_spec (s : BufferPoolManager) (id : PageId) :
    ((FlushPage s id).1 = false ↔
       ptFind s.page_table id = none ∨
       ∃ f, ptFind s.page_table id = some f ∧
         (getPage s f).page_id = INVALID_PAGE_ID) ∧
    (∀ f, ptFind s.page_table id = some f →
       (getPage s f).page_id ≠ INVALID_PAGE_ID →
       (((getPage s f).is_dirty = true →
           (FlushPage s id).2.2 = [DiskOp.write id (getPage s f).data] ∧
           (f < s.pages.length → (getPage (FlushPage s id).2.1 f).is_dirty = false)) ∧
        ((getPage s f).is_dirty = false →
           (FlushPage s id).2.1 = s ∧ (FlushPage s id).2.2 = []))) ∧
    ((FlushPage s id).2.1.page_table = s.page_table ∧
     (FlushPage s id).2.1.replacer = s.replacer ∧
     (FlushPage s id).2.1.free_list = s.free_list ∧
     ∀ g : FrameId,
       (getPage (FlushPage s id).2.1 g).pin_count = (getPage s g).pin_count) := by
  unfold FlushPage
  split
  case h_1 hnone =>
    refine ⟨⟨fun _ => Or.inl hnone, fun _ => rfl⟩, ?_, rfl, rfl, rfl, fun g => rfl⟩
    intro f hf
    rw [hnone] at hf
    cases hf
  case h_2 f hf =>
    dsimp only
    split
    case isTrue hinv =>
      refine ⟨⟨fun _ => Or.inr ⟨f, hf, hinv⟩, fun _ => rfl⟩, ?_, rfl, rfl, rfl, fun g => rfl⟩
      intro g hg hginv
      rw [hf] at hg
      injection hg with h
      subst h
      exact absurd hinv hginv
    case isFalse hinv =>
      split
      case isTrue hd =>
        refine ⟨⟨?_, ?_⟩, ?_, rfl, rfl, rfl, ?_⟩
        · intro h
          simp at h
        · rintro (h | ⟨g, hg, hginv⟩)
          · rw [h] at hf
            cases hf
          · rw [hf] at hg
            injection hg with hh
            subst hh
            exact absurd hginv hinv
        · intro g hg hginv
          rw [hf] at hg
          injection hg with hh
          subst hh
          refine ⟨?_, ?_⟩
          · intro _
            refine ⟨rfl, ?_⟩
            intro hlen
            simp only [getPage_mk]
            rw [getD_set_self _ _ _ hlen]
          · intro hdg
            rw [hdg] at hd
            cases hd
        · intro g
          simp only [getPage_mk]
          by_cases hlen : f < s.pages.length
          · by_cases hgf : g = f
            · subst hgf
              rw [getD_set_self _ _ _ hlen]
            · rw [getD_set_diff _ _ _ _ (fun h => hgf h.symm)]
              rfl
          · rw [getD_set_oob _ _ _ _ (Nat.le_of_not_lt hlen)]
            rfl
      case isFalse hd =>
        refine ⟨⟨?_, ?_⟩, ?_, rfl, rfl, rfl, fun g => rfl⟩
        · intro h
          simp at h
        · rintro (h | ⟨g, hg, hginv⟩)
          · rw [h] at hf
            cases hf
          · rw [hf] at hg
            injection hg with hh
            subst hh
            exact absurd hginv hinv
        · intro g hg hginv
          rw [hf] at hg
          injection hg with hh
          subst hh
          exact ⟨fun hdg => absurd hdg hd, fun _ => ⟨rfl, rfl⟩⟩

/-- Witness for c8_flush_spec: flushing the dirty resident page 7 in a
two-frame pool issues one write keyed 7, clears the dirty flag, and
keeps the pin count. -/
theorem c8_flush_spec_witness :
    (FlushPage c8State 7).2.2 = [DiskOp.write 7 (getPage c8State 0).data] ∧
    (getPage (FlushPage c8State 7).2.1 0).is_dirty = false ∧
    (getPage (FlushPage c8State 7).2.1 0).pin_count = (getPage c8State 0).pin_count :=
  ⟨(((c8_flush_spec c8State 7).2.1 0 (by decide) (by decide)).1 (by decide)).1,
   (((c8_flush_spec c8State 7).2.1 0 (by decide) (by decide)).1 (by decide)).2 (by decide),
   (c8_flush_spec c8State 7).2.2.2.2.2 0⟩

/-- Claim C9: in every pool state reachable by the five public
operations from the initial all-free pool, the victim-selection helper
only yields frames with pin count 0 — the condition of its
assert(target->GetPinCount() == 0) always holds, so the error branch is
unreachable. -/
theorem c9_victim_unpinned (n : Nat) (s : BufferPoolManager) (hs : Reachable n s) :
    victimPinAssert s = true := by
  have hInv := inv_reachable hs
  unfold victimPinAssert
  cases hgv : GetVictimPage s with
  | mk o s1 =>
    cases o with
    | none => rfl
    | some f =>
      obtain ⟨-, -, -, hcase⟩ := getVictim_some hgv
      have hpz : (getPage s f).pin_count = 0 := by
        rcases hcase with ⟨hfl, -⟩ | ⟨-, -, hrep⟩
        · exact hInv.free_pin f (by rw [hfl]; exact List.mem_cons_self f _)
        · exact hInv.repl_pin f (by rw [hrep]; exact List.mem_cons_self f _)
      dsimp only
      rw [hpz]
      rfl

/-- Witness for c9_victim_unpinned at the reachable state c2State (its
single frame is unpinned and dirty, and is the next victim). -/
theorem c9_victim_unpinned_witness : victimPinAssert c2State = true :=
  c9_victim_unpinned 1 c2State ⟨[BPMOp.fetch 0, BPMOp.unpin 0 true], rfl⟩

end Scudb
